import Mathlib

/-!
# Verification of the hotel receptionist tool-call core

A shallow embedding of `src/gradio_hotel_receptionist_2.py`, together with
theorems checking the specification's claims about it.

Modelling conventions:
* The SQLite `rooms` table is a `List Room` in insertion (rowid) order;
  `SELECT` without `ORDER BY` reads rows in that order, `fetchone` is
  `List.find?`, and `UPDATE ... WHERE id = ?` maps over all rows with that id.
* Python `str.strip()` / `str.lower()` and SQLite `LOWER` act on the ASCII
  data these functions handle; they are modelled on `List Char` with
  `Char.isWhitespace` and `Char.toLower`.
* Python dicts with the unique room names as keys are association lists;
  JSON serialization of tool results is elided (a tool message carries the
  structured result directly).
* The external collaborators (chat model, speech, image) are opaque function
  parameters; the unbounded `while True:` loop is run on explicit fuel, a
  run that exhausts its fuel returning `none`.
-/

namespace Hotel

/-! ## Python string normalization (`.strip().lower()`, SQLite `LOWER`) -/

/-- `str.strip()` on character lists: drop whitespace from both ends. -/
def stripList (l : List Char) : List Char :=
  (l.dropWhile Char.isWhitespace).rdropWhile Char.isWhitespace

/-- `str.strip()`. -/
def pyStrip (s : String) : String :=
  ⟨stripList s.data⟩

/-- `str.lower()` and SQLite `LOWER` (ASCII case folding). -/
def pyLower (s : String) : String :=
  ⟨s.data.map Char.toLower⟩

/-- `room_type.strip().lower()`, the normalization both services apply. -/
def normalize (s : String) : String :=
  pyLower (pyStrip s)

/-! ## Data model: the `rooms` table -/

/-- A row of the `rooms` table:
`id INTEGER PRIMARY KEY, name TEXT UNIQUE, description TEXT,
price_per_night REAL, availability INTEGER`. -/
structure Room where
  id : Nat
  name : String
  description : String
  price_per_night : Int
  availability : Int
deriving DecidableEq

/-- The value part of one entry of the dict `get_room_details` returns. -/
structure RoomInfo where
  description : String
  price_per_night : Int
  availability : Int
deriving DecidableEq

/-- The dict entry `name: {description, price_per_night, availability}`. -/
def roomEntry (r : Room) : String × RoomInfo :=
  (r.name, ⟨r.description, r.price_per_night, r.availability⟩)

/-- The fixed seed list of `initialize_database` (ids from AUTOINCREMENT). -/
def seedRooms : List Room :=
  [⟨1, "Deluxe Suite",
    "Spacious suite with a king bed, private balcony, and panoramic bay view.",
    420, 6⟩,
   ⟨2, "Ocean View Room",
    "Elegant room with ocean-facing windows and a queen bed.",
    320, 4⟩,
   ⟨3, "Garden View Room",
    "Cozy room overlooking the hotel gardens, ideal for couples.",
    250, 1⟩,
   ⟨4, "Standard Room",
    "Comfortable, affordable option with all essential amenities.",
    180, 10⟩]

/-- `initialize_database`: seed the table only when `SELECT COUNT(*)` is 0;
an already-populated table is left untouched. -/
def initialize_database (db : List Room) : List Room :=
  if db.isEmpty then seedRooms else db

/-! ## The two tool functions -/

/-- The not-found error message both tools build
(`f"Room type '{...}' not found. Try one of: ..."`). -/
def notFoundMsg (t : String) : String :=
  "Room type \x27" ++ t ++
    "\x27 not found. Try one of: Deluxe Suite, Ocean View Room, Garden View Room, Standard Room."

/-- The sold-out error message of `checkout_room`. -/
def soldOutMsg (name : String) : String :=
  "\x27" ++ name ++
    "\x27 is fully booked at the moment. Would you like to choose a different room type?"

/-- The confirmation message of `checkout_room`. -/
def confirmMsg (name : String) : String :=
  "Reservation confirmed for " ++ name ++ "."

/-- Result of `get_room_details`: the error dict or the dict of rooms. -/
inductive QueryResult where
  | error (msg : String)
  | ok (rooms : List (String × RoomInfo))
deriving DecidableEq

/-- The rows the SELECT of `get_room_details` fetches for a (normalized)
`room_type`. -/
def queryRows (rt : String) (db : List Room) : List Room :=
  if rt ∈ (["all", "rooms"] : List String) then db
  else if rt = "available" then db.filter (fun r => 0 < r.availability)
  else db.filter (fun r => pyLower r.name = rt)

/-- `get_room_details`: normalize the input, fetch rows, and return the error
dict on an empty result or the name-keyed dict of rows. -/
def get_room_details (room_type : String) (db : List Room) : QueryResult :=
  let rt := normalize room_type
  let rows := queryRows rt db
  if rows.isEmpty then .error (notFoundMsg rt)
  else .ok (rows.map roomEntry)

/-- The success dict of `checkout_room`. -/
structure Confirmation where
  room : String
  description : String
  price_per_night : Int
  remaining_availability : Int
  message : String
deriving DecidableEq

/-- Result of `checkout_room`: the error dict or the confirmation dict. -/
inductive CheckoutResult where
  | error (msg : String)
  | ok (conf : Confirmation)
deriving DecidableEq

/-- `checkout_room`: look the room up by lowercased name (`fetchone`), refuse
on no match or `availability <= 0`, else write back `availability - 1`
(`UPDATE rooms SET availability = ? WHERE id = ?`) and confirm.  Returns the
result together with the table state after the call. -/
def checkout_room (room_type : String) (db : List Room) :
    CheckoutResult × List Room :=
  let normalized := normalize room_type
  match db.find? (fun r => pyLower r.name = normalized) with
  | none => (.error (notFoundMsg room_type), db)
  | some r =>
    if r.availability ≤ 0 then
      (.error (soldOutMsg r.name), db)
    else
      let newAvail := r.availability - 1
      (.ok ⟨r.name, r.description, r.price_per_night, newAvail,
          confirmMsg r.name⟩,
        db.map fun x =>
          if x.id = r.id then { x with availability := newAvail } else x)

/-- The table states reachable by the system's own operations: the seeded
table of first startup, then any number of `checkout_room` calls
(`get_room_details` reads only, and re-running `initialize_database` on a
non-empty table is a no-op). -/
inductive Reachable : List Room → Prop where
  | seeded : Reachable (initialize_database [])
  | step (s : String) (db : List Room) :
      Reachable db → Reachable (checkout_room s db).2

/-! ## The tool-call resolution loop (`chat`) -/

/-- The fixed system instruction. -/
def SYSTEM_PROMPT : String :=
  "You are a warm, professional hotel receptionist at Marina Vista Hotel, " ++
  "a luxury hotel located in Singapore\x27s Marina Bay area. " ++
  "You greet guests politely, help with room reservations, local attractions, " ++
  "check-in/check-out information, and answer general questions about the hotel or Singapore. " ++
  "Keep your tone friendly, concise, and helpful, as if speaking to an international guest. " ++
  "Use a touch of hospitality language, but avoid being overly formal."

/-- One structured operation request of the reasoning collaborator: the call
identifier, the requested tool name, and the parsed `room_type` field of its
JSON argument payload. -/
structure ToolCall where
  callId : String
  name : String
  room_type : String
deriving DecidableEq

/-- A collaborator response message: its text content and its (possibly
empty) list of tool calls. -/
structure LLMMessage where
  content : String
  tool_calls : List ToolCall
deriving DecidableEq

/-- A serialized tool result, `json.dumps(result)` of the dict the dispatch
produced: the error dict, the room dict of `get_room_details`, or the booking
dict of `checkout_room` (with the `image_error` key `chat` may add). -/
inductive ToolResult where
  | error (msg : String)
  | rooms (rs : List (String × RoomInfo))
  | booking (conf : Confirmation) (image_error : Option String)
deriving DecidableEq

/-- An entry of the `messages` transcript. -/
inductive Msg where
  | plain (role : String) (content : String)
  | assistantTurn (m : LLMMessage)
  | toolMsg (tool_call_id : String) (result : ToolResult)
deriving DecidableEq

/-- Wrap a `get_room_details` result for the transcript. -/
def queryToTool : QueryResult → ToolResult
  | .error m => .error m
  | .ok rs => .rooms rs

/-- The opaque external collaborators `chat` talks to: the reasoning model,
the image generator `artist` (which may fail, carrying an error message), and
the speech synthesizer `talker`. -/
structure Collaborators where
  llm : List Msg → LLMMessage
  artist : String → Except String String
  talker : String → String

/-- The body of the `for tool_call in message_obj.tool_calls` loop: dispatch
one call by name and return the result to append, the table state, and the
`generated_image` slot.  An unknown name yields the `Unknown tool` error
dict; after a successful `checkout_room`, image synthesis is attempted and a
failure is recorded in the result's `image_error` field (resetting
`generated_image` to `None`) instead of being raised. -/
def handleToolCall (C : Collaborators) (db : List Room) (img : Option String)
    (tc : ToolCall) : ToolResult × List Room × Option String :=
  if tc.name = "get_room_details" then
    (queryToTool (get_room_details tc.room_type db), db, img)
  else if tc.name = "checkout_room" then
    match checkout_room tc.room_type db with
    | (.error m, db2) => (.error m, db2, img)
    | (.ok conf, db2) =>
      let room_prompt := if conf.room ≠ "" then conf.room else tc.room_type
      if room_prompt ≠ "" then
        match C.artist room_prompt with
        | .ok image => (.booking conf none, db2, some image)
        | .error e =>
          (.booking conf (some ("Image generation failed: " ++ e)), db2, none)
      else (.booking conf none, db2, img)
  else (.error ("Unknown tool: " ++ tc.name), db, img)

/-- The mutable state of one `while True:` iteration. -/
structure LoopState where
  db : List Room
  messages : List Msg
  generated_image : Option String
deriving DecidableEq

/-- What one iteration does: either loop again or leave with the reply. -/
inductive StepOutcome where
  | next (st : LoopState)
  | finished (reply : String) (st : LoopState)
deriving DecidableEq

/-- One iteration of the loop: invoke the collaborator, append its message,
and either dispatch every requested call (appending each tagged result) and
continue, or finish with the reply text. -/
def chatStep (C : Collaborators) (st : LoopState) : StepOutcome :=
  let m := C.llm st.messages
  let msgs := st.messages ++ [Msg.assistantTurn m]
  if m.tool_calls.isEmpty then
    .finished m.content { st with messages := msgs }
  else
    let acc := m.tool_calls.foldl
      (fun (acc : List Msg × List Room × Option String) tc =>
        let (r, db2, img2) := handleToolCall C acc.2.1 acc.2.2 tc
        (acc.1 ++ [Msg.toolMsg tc.callId r], db2, img2))
      (msgs, st.db, st.generated_image)
    .next ⟨acc.2.1, acc.1, acc.2.2⟩

/-- The `while True:` loop run on explicit fuel (the number of collaborator
invocations allowed); the source loop has no bound, so a run that exhausts
its fuel returns `none`. -/
def chatRun (C : Collaborators) : Nat → LoopState → Option (String × LoopState)
  | 0, _ => none
  | fuel + 1, st =>
    match chatStep C st with
    | .finished r st2 => some (r, st2)
    | .next st2 => chatRun C fuel st2

/-- One entry of the history the UI supplies: its `role` and `content`
values, each possibly missing. -/
structure HistEntry where
  role : Option String
  content : Option String
deriving DecidableEq

/-- The `for entry in history` loop of `chat`: append each entry whose role
and content are both present and non-empty (Python truthiness) to the
transcript. -/
def addHistory (ms : List Msg) (history : List HistEntry) : List Msg :=
  match history with
  | [] => ms
  | e :: t =>
    match e.role, e.content with
    | some r, some c =>
      if r ≠ "" ∧ c ≠ "" then addHistory (ms ++ [Msg.plain r c]) t
      else addHistory ms t
    | _, _ => addHistory ms t

/-- `chat(history)`: build the transcript from the system prompt and the
kept history entries, run the loop, then synthesize speech for the reply and
return the updated history, the audio, and the generated image (if any). -/
def chat (C : Collaborators) (fuel : Nat) (db : List Room)
    (history : List HistEntry) :
    Option (List HistEntry × String × Option String) :=
  let messages := addHistory [Msg.plain "system" SYSTEM_PROMPT] history
  match chatRun C fuel ⟨db, messages, none⟩ with
  | none => none
  | some (reply, st) =>
    some (history ++ [⟨some "assistant", some reply⟩], C.talker reply,
      st.generated_image)

/-! ## Stub collaborators for exercising the loop -/

/-- Is a transcript entry a tool-result message? -/
def hasToolMsg : Msg → Bool
  | .toolMsg .. => true
  | _ => false

/-- A well-formed `get_room_details` request. -/
def probeCall : ToolCall :=
  ⟨"call_1", "get_room_details", "all"⟩

/-- A reasoning stub that requests `get_room_details` once and then, seeing
the tool result in the transcript, answers with plain text. -/
def oneRoundLLM : List Msg → LLMMessage := fun ms =>
  if ms.any hasToolMsg then ⟨"Here are our rooms.", []⟩
  else ⟨"", [probeCall]⟩

/-- Collaborators built around `oneRoundLLM`. -/
def oneRoundCollab : Collaborators :=
  ⟨oneRoundLLM, fun p => .ok ("image of " ++ p), fun r => "audio: " ++ r⟩

/-- A reasoning stub that requests an operation in every round. -/
def loopingCollab : Collaborators :=
  ⟨fun _ => ⟨"", [probeCall]⟩, fun p => .ok p, fun r => r⟩

/-- A well-formed `checkout_room` request. -/
def bookCall : ToolCall :=
  ⟨"call_9", "checkout_room", "Standard Room"⟩

/-- A reasoning stub that books a room once and then answers with text. -/
def bookOnceLLM : List Msg → LLMMessage := fun ms =>
  if ms.any hasToolMsg then ⟨"Booked!", []⟩
  else ⟨"", [bookCall]⟩

/-- Collaborators whose image generator always fails with message `e`. -/
def bookingCollab (e : String) : Collaborators :=
  ⟨bookOnceLLM, fun _ => .error e, fun r => r⟩

/-- A request whose operation name the system does not implement. -/
def unknownCall : ToolCall :=
  ⟨"call_7", "cancel_room", "Standard Room"⟩

/-- Collaborators whose reasoning stub emits only `unknownCall`. -/
def unknownCollab : Collaborators :=
  ⟨fun _ => ⟨"", [unknownCall]⟩, fun p => .ok p, fun r => r⟩

/-! ## Character-level facts about the normalization -/

theorem char_toNat_ofNat_of_valid {n : Nat} (h : n.isValidChar) :
    (Char.ofNat n).toNat = n := by
  simp only [Char.ofNat, dif_pos h]
  rfl

theorem toLower_of_upper {c : Char} (h65 : 65 ≤ c.toNat) (h90 : c.toNat ≤ 90) :
    (Char.toLower c).toNat = c.toNat + 32 := by
  have hv : Nat.isValidChar (c.toNat + 32) := Or.inl (by omega)
  simp only [Char.toLower]
  rw [if_pos ⟨h65, h90⟩]
  exact char_toNat_ofNat_of_valid hv

theorem toLower_of_not_upper {c : Char} (h : ¬(c.toNat ≥ 65 ∧ c.toNat ≤ 90)) :
    Char.toLower c = c := by
  simp only [Char.toLower]
  rw [if_neg h]

theorem not_whitespace_of_letter {c : Char} (h65 : 65 ≤ c.toNat)
    (h122 : c.toNat ≤ 122) : c.isWhitespace = false := by
  have h1 : c ≠ ' ' := fun e => by subst e; exact absurd h65 (by decide)
  have h2 : c ≠ '\t' := fun e => by subst e; exact absurd h65 (by decide)
  have h3 : c ≠ '\r' := fun e => by subst e; exact absurd h65 (by decide)
  have h4 : c ≠ '\n' := fun e => by subst e; exact absurd h65 (by decide)
  simp [Char.isWhitespace, h1, h2, h3, h4]

theorem isWhitespace_toLower (c : Char) :
    (Char.toLower c).isWhitespace = c.isWhitespace := by
  by_cases h : c.toNat ≥ 65 ∧ c.toNat ≤ 90
  · have ht : (Char.toLower c).toNat = c.toNat + 32 := toLower_of_upper h.1 h.2
    have e1 : (Char.toLower c).isWhitespace = false :=
      not_whitespace_of_letter (by omega) (by omega)
    have e2 : c.isWhitespace = false :=
      not_whitespace_of_letter h.1 (by omega)
    rw [e1, e2]
  · rw [toLower_of_not_upper h]

theorem toLower_idem (c : Char) :
    Char.toLower (Char.toLower c) = Char.toLower c := by
  by_cases h : c.toNat ≥ 65 ∧ c.toNat ≤ 90
  · have ht : (Char.toLower c).toNat = c.toNat + 32 := toLower_of_upper h.1 h.2
    exact toLower_of_not_upper (by omega)
  · rw [toLower_of_not_upper h, toLower_of_not_upper h]

theorem ws_comp_toLower :
    Char.isWhitespace ∘ Char.toLower = Char.isWhitespace :=
  funext isWhitespace_toLower

theorem stripList_map_toLower (l : List Char) :
    stripList (l.map Char.toLower) = (stripList l).map Char.toLower := by
  unfold stripList List.rdropWhile
  rw [List.dropWhile_map, ws_comp_toLower, ← List.map_reverse,
    List.dropWhile_map, ws_comp_toLower, List.map_reverse]

theorem dropWhile_stripList (l : List Char) :
    (stripList l).dropWhile Char.isWhitespace = stripList l := by
  rw [List.dropWhile_eq_self_iff]
  intro hl
  obtain ⟨t, ht⟩ :=
    List.rdropWhile_prefix Char.isWhitespace (l.dropWhile Char.isWhitespace)
  have ht' : stripList l ++ t = l.dropWhile Char.isWhitespace := ht
  have hne : stripList l ≠ [] := List.ne_nil_of_length_pos hl
  have hne2 : l.dropWhile Char.isWhitespace ≠ [] := by
    rw [← ht']
    exact fun e => hne (List.append_eq_nil.mp e).1
  have hheads := @List.head_append_left _ (stripList l) t hne
  simp only [ht'] at hheads
  have hfalse := List.head_dropWhile_not Char.isWhitespace l hne2
  rw [hheads] at hfalse
  rw [List.get_mk_zero]
  simp [hfalse]

theorem stripList_idem (l : List Char) :
    stripList (stripList l) = stripList l := by
  show ((stripList l).dropWhile Char.isWhitespace).rdropWhile Char.isWhitespace
      = stripList l
  rw [dropWhile_stripList]
  unfold stripList
  exact List.rdropWhile_idempotent Char.isWhitespace _

theorem normalize_idem (s : String) : normalize (normalize s) = normalize s := by
  apply String.ext
  show ((stripList ((stripList s.data).map Char.toLower)).map Char.toLower)
      = (stripList s.data).map Char.toLower
  rw [stripList_map_toLower, stripList_idem, List.map_map]
  have : Char.toLower ∘ Char.toLower = Char.toLower := funext toLower_idem
  rw [this]

/-! ## String facts about the error messages -/

theorem notFoundMsg_inj {a b : String} :
    notFoundMsg a = notFoundMsg b ↔ a = b := by
  constructor
  · intro h
    unfold notFoundMsg at h
    have hd := congrArg String.data h
    simp only [String.data_append, List.append_assoc] at hd
    exact String.ext
      (List.append_cancel_right (List.append_cancel_left hd))
  · intro h
    rw [h]

/-! ## Helper lemmas about the table -/

theorem nodup_ids_getElem?_eq {db : List Room} {i j : Nat} {x r : Room}
    (hids : (db.map Room.id).Nodup) (hx : db[i]? = some x)
    (hr : db[j]? = some r) (hid : x.id = r.id) : x = r ∧ i = j := by
  rcases List.getElem?_eq_some_iff.mp hx with ⟨hilen, hxg⟩
  rcases List.getElem?_eq_some_iff.mp hr with ⟨hjlen, hrg⟩
  have hilen2 : i < (db.map Room.id).length := by simpa using hilen
  have hjlen2 : j < (db.map Room.id).length := by simpa using hjlen
  have hm : (db.map Room.id)[i] = (db.map Room.id)[j] := by
    rw [List.getElem_map, List.getElem_map, hxg, hrg, hid]
  have hij : i = j := hids.getElem_inj_iff.mp hm
  subst hij
  rw [hxg] at hrg
  exact ⟨hrg, rfl⟩

theorem map_update_eq_set {db : List Room} {r : Room} {i : Nat} (v : Int)
    (hids : (db.map Room.id).Nodup) (hi : db[i]? = some r) :
    (db.map fun x => if x.id = r.id then { x with availability := v } else x)
      = db.set i { r with availability := v } := by
  have hilen : i < db.length := (List.getElem?_eq_some_iff.mp hi).1
  apply List.ext_getElem?
  intro j
  rw [List.getElem?_map]
  by_cases hji : j = i
  · subst hji
    rw [hi, List.getElem?_set_self hilen]
    simp
  · rw [List.getElem?_set_ne (fun e => hji e.symm)]
    cases hx : db[j]? with
    | none => rfl
    | some x =>
      have hxid : x.id ≠ r.id := fun he =>
        hji (nodup_ids_getElem?_eq hids hx hi he).2
      simp [hxid]

theorem filter_name_length_le_one (key : String) (db : List Room)
    (h : (db.map fun r => pyLower r.name).Nodup) :
    (db.filter fun r => pyLower r.name = key).length ≤ 1 := by
  induction db with
  | nil => simp
  | cons a t ih =>
    rw [List.map_cons, List.nodup_cons] at h
    rw [List.filter_cons]
    by_cases ha : pyLower a.name = key
    · have ht : t.filter (fun r => pyLower r.name = key) = [] := by
        apply List.filter_eq_nil_iff.mpr
        intro x hx hc
        have hx' : pyLower x.name = key := by simpa using hc
        exact h.1 (by
          rw [List.mem_map]
          exact ⟨x, hx, hx'.trans ha.symm⟩)
      simp [ha, ht]
    · simp [ha, ih h.2]

/-- The structural invariant the table keeps along `Reachable` states:
distinct ids (the PRIMARY KEY), non-negative availability, and at least one
row. -/
theorem reachable_inv (db : List Room) (h : Reachable db) :
    (db.map Room.id).Nodup ∧ (∀ r ∈ db, 0 ≤ r.availability) ∧ db ≠ [] := by
  induction h with
  | seeded => exact ⟨by decide, by decide, by decide⟩
  | step s d hr ih =>
    obtain ⟨hid, hav, hne⟩ := ih
    rcases hfind : d.find? (fun x => pyLower x.name = normalize s) with _ | r
    · simpa [checkout_room, hfind] using ⟨hid, hav, hne⟩
    · by_cases hava : r.availability ≤ 0
      · simpa [checkout_room, hfind, hava] using ⟨hid, hav, hne⟩
      · have h2 : (checkout_room s d).2
            = d.map fun x =>
                if x.id = r.id then { x with availability := r.availability - 1 }
                else x := by
          simp [checkout_room, hfind, hava]
        rw [h2]
        refine ⟨?_, ?_, ?_⟩
        · rw [List.map_map]
          have hc : (Room.id ∘ fun x =>
              if x.id = r.id then { x with availability := r.availability - 1 }
              else x) = Room.id := by
            funext x
            by_cases hx : x.id = r.id <;> simp [hx]
          rw [hc]
          exact hid
        · intro y hy
          rw [List.mem_map] at hy
          obtain ⟨x, hx, hxy⟩ := hy
          by_cases hx2 : x.id = r.id
          · rw [← hxy, if_pos hx2]
            show 0 ≤ r.availability - 1
            omega
          · rw [← hxy, if_neg hx2]
            exact hav x hx
        · simp [hne]

/-! ## Claim theorems -/

/-- C5: from an empty table, `initialize_database` inserts exactly the four
seed rooms with prices 420, 320, 250, 180 and availability 6, 4, 1, 10;
on a non-empty table it performs no inserts and changes no row. -/
theorem initialize_database_spec (db : List Room) (h : db ≠ []) :
    (initialize_database []).map
        (fun r => (r.name, r.price_per_night, r.availability))
      = [("Deluxe Suite", (420 : Int), (6 : Int)),
         ("Ocean View Room", 320, 4),
         ("Garden View Room", 250, 1),
         ("Standard Room", 180, 10)]
  ∧ initialize_database db = db := by
  refine ⟨rfl, ?_⟩
  unfold initialize_database
  rw [if_neg]
  simp [h]

theorem initialize_database_spec_witness :
    (initialize_database []).map
        (fun r => (r.name, r.price_per_night, r.availability))
      = [("Deluxe Suite", (420 : Int), (6 : Int)),
         ("Ocean View Room", 320, 4),
         ("Garden View Room", 250, 1),
         ("Standard Room", 180, 10)]
  ∧ initialize_database seedRooms = seedRooms :=
  initialize_database_spec seedRooms (by decide)

/-- C7: `get_room_details` is invariant under normalizing its input (the
result on `s` equals the result on `s.strip().lower()`); in particular
`"Deluxe Suite"` and `"deluxe suite"` give identical results. -/
theorem get_room_details_normalize (s : String) (db : List Room) :
    get_room_details s db = get_room_details (normalize s) db
  ∧ get_room_details "Deluxe Suite" db = get_room_details "deluxe suite" db := by
  have key : ∀ t : String,
      get_room_details t db = get_room_details (normalize t) db := by
    intro t
    unfold get_room_details
    rw [normalize_idem]
  refine ⟨key s, ?_⟩
  rw [key "Deluxe Suite"]
  have e : normalize "Deluxe Suite" = "deluxe suite" := by decide
  rw [e]

/-- C6 fails on the code: for an input needing normalization, the two
not-found errors differ — `checkout_room` interpolates the original input
into its message while `get_room_details` interpolates the normalized one. -/
theorem checkout_query_notFound_differ :
    (checkout_room "Penthouse " seedRooms).1
        = CheckoutResult.error (notFoundMsg "Penthouse ")
  ∧ get_room_details "Penthouse " seedRooms
        = QueryResult.error (notFoundMsg "penthouse")
  ∧ notFoundMsg "Penthouse " ≠ notFoundMsg "penthouse" :=
  ⟨rfl, rfl, by decide⟩

/-- C6 (amended): on an input that matches no room and is not a listing
keyword, both tools return a not-found error of the same shape;
`checkout_room` carries the original input and `get_room_details` the
normalized one, so the contents coincide exactly when the input equals its
normalization. -/
theorem checkout_query_notFound_agree (s : String) (db : List Room)
    (hmatch : ∀ x ∈ db, pyLower x.name ≠ normalize s)
    (hkw : normalize s ∉ (["all", "rooms", "available"] : List String)) :
    (checkout_room s db).1 = CheckoutResult.error (notFoundMsg s)
  ∧ get_room_details s db = QueryResult.error (notFoundMsg (normalize s))
  ∧ (notFoundMsg s = notFoundMsg (normalize s) ↔ s = normalize s) := by
  have hfind : db.find? (fun r => pyLower r.name = normalize s) = none :=
    List.find?_eq_none.mpr (fun x hx => by simpa using hmatch x hx)
  have h1 : normalize s ∉ (["all", "rooms"] : List String) := by
    intro hc
    apply hkw
    simp only [List.mem_cons, List.mem_singleton] at hc ⊢
    tauto
  have h2 : normalize s ≠ "available" := by
    intro hc
    apply hkw
    simp [hc]
  have hfilter : db.filter (fun r => pyLower r.name = normalize s) = [] :=
    List.filter_eq_nil_iff.mpr (fun x hx => by simpa using hmatch x hx)
  refine ⟨?_, ?_, notFoundMsg_inj⟩
  · simp [checkout_room, hfind]
  · have hq : queryRows (normalize s) db = [] := by
      unfold queryRows
      rw [if_neg h1, if_neg h2]
      exact hfilter
    simp [get_room_details, hq]

theorem checkout_query_notFound_agree_witness :
    (checkout_room "penthouse" seedRooms).1
        = CheckoutResult.error (notFoundMsg "penthouse")
  ∧ get_room_details "penthouse" seedRooms
        = QueryResult.error (notFoundMsg (normalize "penthouse"))
  ∧ (notFoundMsg "penthouse" = notFoundMsg (normalize "penthouse")
        ↔ "penthouse" = normalize "penthouse") :=
  checkout_query_notFound_agree "penthouse" seedRooms (by decide) (by decide)

/-- C4: the loop ends exactly when the collaborator stops requesting
operations — with a stub that requests a tool once and then answers, `chat`
needs exactly two collaborator rounds (one dispatch round) and returns the
final text; with a stub that requests tools forever, the loop never
finishes, whatever fuel it is given (the source has no iteration guard). -/
theorem chat_loop_termination :
    chat oneRoundCollab 2 seedRooms []
        = some ([⟨some "assistant", some "Here are our rooms."⟩],
            "audio: Here are our rooms.", none)
  ∧ chatRun oneRoundCollab 1
        ⟨seedRooms, [Msg.plain "system" SYSTEM_PROMPT], none⟩ = none
  ∧ ∀ (fuel : Nat) (st : LoopState), chatRun loopingCollab fuel st = none := by
  refine ⟨rfl, rfl, ?_⟩
  intro fuel
  induction fuel with
  | zero => intro st; rfl
  | succ n ih =>
    intro st
    rw [chatRun]
    exact ih _

/-- C8: a requested operation whose name is neither `get_room_details` nor
`checkout_room` is answered by the `Unknown tool: <name>` error result,
appended as a tool message tagged with the call's identifier, and the loop
proceeds to the next round (table and image state untouched) instead of
aborting. -/
theorem unknown_tool_spec (C : Collaborators) (st : LoopState) (tc : ToolCall)
    (c : String)
    (h1 : tc.name ≠ "get_room_details") (h2 : tc.name ≠ "checkout_room")
    (hllm : C.llm st.messages = ⟨c, [tc]⟩) :
    chatStep C st = .next ⟨st.db,
      st.messages ++ [Msg.assistantTurn ⟨c, [tc]⟩,
        Msg.toolMsg tc.callId (.error ("Unknown tool: " ++ tc.name))],
      st.generated_image⟩ := by
  unfold chatStep
  rw [hllm]
  simp [handleToolCall, h1, h2]

theorem unknown_tool_spec_witness :
    chatStep unknownCollab ⟨seedRooms, [], none⟩ = .next ⟨seedRooms,
      [Msg.assistantTurn ⟨"", [unknownCall]⟩,
       Msg.toolMsg "call_7" (.error ("Unknown tool: " ++ "cancel_room"))],
      none⟩ := by
  have h := unknown_tool_spec unknownCollab ⟨seedRooms, [], none⟩ unknownCall ""
    (by decide) (by decide) rfl
  simpa using h

/-- C9: when a `checkout_room` call succeeds but image synthesis fails, the
failure is not raised: the booking result keeps its success fields and gains
an `image_error` field describing the failure, and the invocation completes
normally with no image returned. -/
theorem image_failure_nonfatal (e : String) :
    chat (bookingCollab e) 2 seedRooms []
        = some ([⟨some "assistant", some "Booked!"⟩], "Booked!", none)
  ∧ chatRun (bookingCollab e) 2
        ⟨seedRooms, [Msg.plain "system" SYSTEM_PROMPT], none⟩
      = some ("Booked!",
          ⟨seedRooms.set 3 ⟨4, "Standard Room",
              "Comfortable, affordable option with all essential amenities.",
              180, 9⟩,
           [Msg.plain "system" SYSTEM_PROMPT,
            Msg.assistantTurn ⟨"", [bookCall]⟩,
            Msg.toolMsg "call_9" (.booking
              ⟨"Standard Room",
               "Comfortable, affordable option with all essential amenities.",
               180, 9, confirmMsg "Standard Room"⟩
              (some ("Image generation failed: " ++ e))),
            Msg.assistantTurn ⟨"Booked!", []⟩],
           none⟩) :=
  ⟨rfl, rfl⟩

theorem addHistory_eq_filter (ms : List Msg) (history : List HistEntry) :
    addHistory ms history
      = ms ++ (history.filter (fun e =>
            e.role ≠ none ∧ e.role ≠ some "" ∧
            e.content ≠ none ∧ e.content ≠ some "")).map
          (fun e => Msg.plain (e.role.getD "") (e.content.getD "")) := by
  induction history generalizing ms with
  | nil => simp [addHistory]
  | cons e t ih =>
    rcases e with ⟨ro, co⟩
    rcases ro with _ | r
    · simp [addHistory, List.filter_cons, ih ms]
    · rcases co with _ | c
      · simp [addHistory, List.filter_cons, ih ms]
      · by_cases hr : r = ""
        · subst hr
          simp [addHistory, List.filter_cons, ih ms]
        · by_cases hc : c = ""
          · subst hc
            simp [addHistory, List.filter_cons, hr, ih ms]
          · simp [addHistory, List.filter_cons, hr, hc,
              ih (ms ++ [Msg.plain r c])]

/-- C10: the transcript `chat` builds is the system instruction followed by
exactly the supplied history entries whose role and content are both present
and non-empty; entries with a missing or empty role or content are silently
dropped and never forwarded. -/
theorem history_filtering (history : List HistEntry) :
    addHistory [Msg.plain "system" SYSTEM_PROMPT] history
      = Msg.plain "system" SYSTEM_PROMPT ::
          (history.filter (fun e =>
              e.role ≠ none ∧ e.role ≠ some "" ∧
              e.content ≠ none ∧ e.content ≠ some "")).map
            (fun e => Msg.plain (e.role.getD "") (e.content.getD "")) := by
  rw [addHistory_eq_filter]
  rfl

/-- C1: `checkout_room` normalizes its input and looks the room up by exact
case-insensitive name: no match gives the not-found error and leaves the
table unchanged; a match with `availability <= 0` gives the sold-out error
naming the room and leaves the table unchanged; otherwise it returns the
confirmation carrying the room's name, description, price, the old
availability minus one and the confirmation message, and the table changes
only in that room's row, whose stored availability drops by exactly 1. -/
theorem checkout_room_spec (s : String) (db : List Room)
    (hids : (db.map Room.id).Nodup) :
    ((∀ x ∈ db, pyLower x.name ≠ normalize s) →
        checkout_room s db = (CheckoutResult.error (notFoundMsg s), db))
  ∧ ∀ r, db.find? (fun x => pyLower x.name = normalize s) = some r →
      (r ∈ db ∧ pyLower r.name = normalize s)
      ∧ (r.availability ≤ 0 →
          checkout_room s db = (CheckoutResult.error (soldOutMsg r.name), db))
      ∧ (0 < r.availability →
          (checkout_room s db).1 = CheckoutResult.ok
            ⟨r.name, r.description, r.price_per_night, r.availability - 1,
             confirmMsg r.name⟩
          ∧ ∃ i, db[i]? = some r
              ∧ (checkout_room s db).2
                  = db.set i { r with availability := r.availability - 1 }) := by
  constructor
  · intro hno
    have hfind : db.find? (fun x => pyLower x.name = normalize s) = none :=
      List.find?_eq_none.mpr (fun x hx => by simpa using hno x hx)
    simp [checkout_room, hfind]
  · intro r hfind
    have hmem : r ∈ db := List.mem_of_find?_eq_some hfind
    have hname : pyLower r.name = normalize s := by
      simpa using List.find?_some hfind
    refine ⟨⟨hmem, hname⟩, ?_, ?_⟩
    · intro hav
      simp [checkout_room, hfind, hav]
    · intro hpos
      have hneg : ¬ r.availability ≤ 0 := by omega
      obtain ⟨i, hi⟩ := List.mem_iff_getElem?.mp hmem
      refine ⟨by simp [checkout_room, hfind, hneg], i, hi, ?_⟩
      have hset := map_update_eq_set (r.availability - 1) hids hi
      simp [checkout_room, hfind, hneg, hset]

theorem checkout_room_spec_witness :
    checkout_room "penthouse suite" seedRooms
      = (CheckoutResult.error (notFoundMsg "penthouse suite"), seedRooms) :=
  (checkout_room_spec "penthouse suite" seedRooms (by decide)).1 (by decide)

/-- C3: `get_room_details` dispatches on the normalized input: `all` and
`rooms` list every row, `available` lists exactly the rows with positive
availability, anything else matches at most one row by case-insensitive
name (given the store's unique names), and an empty match set yields the
not-found error carrying the attempted (normalized) input and the valid
room names. -/
theorem get_room_details_spec (s : String) (db : List Room)
    (hnames : (db.map fun r => pyLower r.name).Nodup) :
    ((normalize s = "all" ∨ normalize s = "rooms") → db ≠ [] →
        get_room_details s db = QueryResult.ok (db.map roomEntry))
  ∧ (normalize s = "available" →
        (db.filter fun r => 0 < r.availability) ≠ [] →
        get_room_details s db
          = QueryResult.ok
              ((db.filter fun r => 0 < r.availability).map roomEntry))
  ∧ (normalize s ∉ (["all", "rooms", "available"] : List String) →
        (db.filter fun r => pyLower r.name = normalize s).length ≤ 1
      ∧ ((db.filter fun r => pyLower r.name = normalize s) ≠ [] →
          get_room_details s db
            = QueryResult.ok
                ((db.filter fun r => pyLower r.name = normalize s).map
                  roomEntry)))
  ∧ (queryRows (normalize s) db = [] →
        get_room_details s db = QueryResult.error (notFoundMsg (normalize s))) := by
  refine ⟨?_, ?_, ?_, ?_⟩
  · intro hs hne
    have hq : queryRows (normalize s) db = db := by
      unfold queryRows
      rcases hs with hs | hs <;> simp [hs]
    simp [get_room_details, hq, hne]
  · intro hs hne
    have hq : queryRows (normalize s) db
        = db.filter (fun r => 0 < r.availability) := by
      unfold queryRows
      simp [hs]
    simp [get_room_details, hq, hne]
  · intro hs
    have h1 : normalize s ∉ (["all", "rooms"] : List String) := by
      intro hc
      apply hs
      simp only [List.mem_cons, List.mem_singleton] at hc ⊢
      tauto
    have h2 : normalize s ≠ "available" := by
      intro hc
      apply hs
      simp [hc]
    have hq : queryRows (normalize s) db
        = db.filter (fun r => pyLower r.name = normalize s) := by
      unfold queryRows
      rw [if_neg h1, if_neg h2]
    refine ⟨filter_name_length_le_one (normalize s) db hnames, ?_⟩
    intro hne
    simp [get_room_details, hq, hne]
  · intro hq
    simp [get_room_details, hq]

theorem get_room_details_spec_witness :
    get_room_details "all" seedRooms = QueryResult.ok (seedRooms.map roomEntry) :=
  (get_room_details_spec "all" seedRooms (by decide)).1
    (Or.inl (by decide)) (by decide)

/-- C2: in every reachable table state availability is non-negative;
re-initialization changes nothing; a checkout against a room at availability
0 is refused (sold-out error, table unchanged) rather than clamped; a
successful checkout decrements exactly its room's availability by 1, staying
non-negative; no checkout ever increases any row's availability; a checkout
that returns an error changes no row at all (so only successful checkouts
decrease anything, `get_room_details` being read-only by construction); and
the table after any checkout still has only non-negative availabilities. -/
theorem availability_invariant (db : List Room) (h : Reachable db) :
    (∀ r ∈ db, 0 ≤ r.availability)
  ∧ initialize_database db = db
  ∧ (∀ (s : String) (r : Room),
        db.find? (fun x => pyLower x.name = normalize s) = some r →
        r.availability = 0 →
        checkout_room s db = (CheckoutResult.error (soldOutMsg r.name), db))
  ∧ (∀ (s : String) (conf : Confirmation) (db2 : List Room),
        checkout_room s db = (CheckoutResult.ok conf, db2) →
        ∃ i x, db[i]? = some x ∧ 0 < x.availability
          ∧ conf.remaining_availability = x.availability - 1
          ∧ 0 ≤ conf.remaining_availability
          ∧ db2 = db.set i { x with availability := x.availability - 1 })
  ∧ (∀ (s : String) (i : Nat) (x y : Room),
        db[i]? = some x → (checkout_room s db).2[i]? = some y →
        y.availability ≤ x.availability)
  ∧ (∀ (s : String) (m : String) (db2 : List Room),
        checkout_room s db = (CheckoutResult.error m, db2) → db2 = db)
  ∧ (∀ s : String, ∀ r ∈ (checkout_room s db).2, 0 ≤ r.availability) := by
  obtain ⟨hid, hav, hne⟩ := reachable_inv db h
  refine ⟨hav, ?_, ?_, ?_, ?_, ?_, ?_⟩
  · unfold initialize_database
    rw [if_neg]
    simp [hne]
  · intro s r hfind hz
    simp [checkout_room, hfind, hz]
  · intro s conf db2 heq
    rcases hfind : db.find? (fun x => pyLower x.name = normalize s) with _ | r
    · simp [checkout_room, hfind] at heq
    · by_cases hava : r.availability ≤ 0
      · simp [checkout_room, hfind, hava] at heq
      · have hmem : r ∈ db := List.mem_of_find?_eq_some hfind
        obtain ⟨i, hi⟩ := List.mem_iff_getElem?.mp hmem
        have hpair : conf = ⟨r.name, r.description, r.price_per_night,
            r.availability - 1, confirmMsg r.name⟩
            ∧ db2 = db.map fun x =>
                if x.id = r.id then { x with availability := r.availability - 1 }
                else x := by
          have h2 := heq
          simp [checkout_room, hfind, hava] at h2
          exact ⟨h2.1.symm, h2.2.symm⟩
        refine ⟨i, r, hi, by omega, ?_, ?_, ?_⟩
        · rw [hpair.1]
        · rw [hpair.1]
          show 0 ≤ r.availability - 1
          omega
        · rw [hpair.2]
          exact map_update_eq_set (r.availability - 1) hid hi
  · intro s i x y hx hy
    rcases hfind : db.find? (fun x => pyLower x.name = normalize s) with _ | r
    · have h2 : (checkout_room s db).2 = db := by simp [checkout_room, hfind]
      rw [h2, hx] at hy
      cases hy
      omega
    · by_cases hava : r.availability ≤ 0
      · have h2 : (checkout_room s db).2 = db := by
          simp [checkout_room, hfind, hava]
        rw [h2, hx] at hy
        cases hy
        omega
      · have h2 : (checkout_room s db).2
            = db.map fun x =>
                if x.id = r.id then { x with availability := r.availability - 1 }
                else x := by
          simp [checkout_room, hfind, hava]
        rw [h2, List.getElem?_map, hx] at hy
        have hy' : (if x.id = r.id
            then { x with availability := r.availability - 1 } else x) = y := by
          simpa using hy
        by_cases hx2 : x.id = r.id
        · rw [if_pos hx2] at hy'
          have hxr : x = r := by
            have hmem : r ∈ db := List.mem_of_find?_eq_some hfind
            obtain ⟨j, hj⟩ := List.mem_iff_getElem?.mp hmem
            exact (nodup_ids_getElem?_eq hid hx hj hx2).1
          rw [← hy']
          show r.availability - 1 ≤ x.availability
          rw [hxr]
          omega
        · rw [if_neg hx2] at hy'
          rw [← hy']
  · intro s m db2 heq
    rcases hfind : db.find? (fun x => pyLower x.name = normalize s) with _ | r
    · have h2 := heq
      simp [checkout_room, hfind] at h2
      exact h2.2.symm
    · by_cases hava : r.availability ≤ 0
      · have h2 := heq
        simp [checkout_room, hfind, hava] at h2
        exact h2.2.symm
      · have h2 := heq
        simp [checkout_room, hfind, hava] at h2
  · intro s
    exact (reachable_inv _ (Reachable.step s db h)).2.1

theorem availability_invariant_witness :
    initialize_database seedRooms = seedRooms :=
  (availability_invariant seedRooms Reachable.seeded).2.1

end Hotel
